/-
Formal model of the qwinai-server document-processing pipeline.

This file gives a shallow embedding, in Lean 4, of the JavaScript classes
DocumentChunker (src/services/documentChunker.js), UniversalTokenCounter,
SecureFileProcessor and FileExtractor, together with theorems settling the
stated claims about them.

Modelling conventions, applied uniformly:
- JavaScript strings are modelled as lists of characters (Str).  Lengths are
  code-point counts; all concrete inputs used below are ASCII, where this
  coincides with the UTF-16 code-unit length used by JavaScript.
- await is erased where the source awaits: a resolved value stands for the
  awaited promise, and timeout races (Promise.race with a timer) are dropped,
  since no claim concerns real time.  Where the source calls an async function
  WITHOUT await and then consumes the pending Promise as a plain value, the
  model reproduces the JavaScript outcome of that consumption: numeric
  coercion of a Promise object yields NaN (modelled as none in an Option Nat
  token count, with every NaN comparison false), and calling .map on a
  Promise throws a TypeError (an error value).  This happens in two places:
  the tokenCount stored by splitByCharacterLimitSecure, and the chunks local
  of processFile.
- Fallible operations return Except String; a thrown Error is an error value.
- External collaborators that touch the filesystem or external libraries
  (fs.stat, the actual per-format extractors, the tiktoken encoders) enter as
  explicit parameters, mirroring the dependency injection in the source.
- Number arithmetic is modelled exactly (Nat, Int, Rat).  Where the source
  compares against a binary float (1.1, 0.3, 0.5) a comment at the use site
  records the rounding analysis justifying the exact rational model.
- Several scanning functions below take a fuel argument so that they are
  structurally recursive and hence evaluate inside the kernel.  Each step of
  the corresponding loop consumes at least one character of the scanned list,
  and the wrapper passes length + 1 fuel, so the fuel bound is never reached;
  the fuel-exhausted branch is dead code.
-/
import Mathlib

set_option maxRecDepth 100000

/- Decidable equality for fallible results, used to state concrete
evaluations of the model. -/
deriving instance DecidableEq for Except

/-- JavaScript strings, modelled as lists of characters. -/
abbrev Str := List Char

/-- Shorthand to turn a Lean string literal into the Str model. -/
def str (s : String) : Str := s.toList

/-- A double newline, the paragraph separator used by the chunker. -/
def nl2 : Str := ['\n', '\n']

/-- Three newlines, the replacement for excessive newline runs. -/
def nl3 : Str := ['\n', '\n', '\n']

/-- The character class matched by the regex \s, restricted to the ASCII
whitespace characters.  (JavaScript \s also matches Unicode space
characters; none of the inputs considered below contain any.) -/
def jsIsWs (c : Char) : Bool :=
  c == ' ' || c == '\t' || c == '\n' || c == '\r' || c == '\x0B' || c == '\x0C'

/-- String.prototype.trim: remove leading and trailing whitespace. -/
def jsTrim (s : Str) : Str :=
  ((s.dropWhile jsIsWs).reverse.dropWhile jsIsWs).reverse

/-- Index of the last occurrence of a character in a list, if any. -/
def lastIdxOf (c : Char) : Str → Option Nat
  | [] => none
  | x :: rest =>
    match lastIdxOf c rest with
    | some j => some (j + 1)
    | none => if x == c then some 0 else none

/-- String.prototype.lastIndexOf for a single character: the largest index
at most pos holding the character, or -1. -/
def jsLastIndexOf (s : Str) (c : Char) (pos : Nat) : Int :=
  match lastIdxOf c (s.take (pos + 1)) with
  | some j => (j : Int)
  | none => -1

/-- Case-insensitive test that the pattern is a prefix of the list
(the i regex flag; ASCII case folding). -/
def ciStarts : Str → Str → Bool
  | [], _ => true
  | _ :: _, [] => false
  | p :: ps, c :: cs => (p.toLower == c.toLower) && ciStarts ps cs

/-- Case-insensitive substring test, the model of regex.test for a literal
pattern with the i flag. -/
def containsCI (pat : Str) (s : Str) : Bool :=
  s.tails.any (ciStarts pat)

/-- Earliest index at which the pattern occurs (case-insensitively). -/
def findCIIdx (pat : Str) : Str → Option Nat
  | [] => if ciStarts pat [] then some 0 else none
  | c :: rest =>
    if ciStarts pat (c :: rest) then some 0
    else (findCIIdx pat rest).map (· + 1)

/-- The character class matched by the regex \w (ASCII). -/
def isWordChar (c : Char) : Bool :=
  c.isAlpha || c.isDigit || c == '_'

/-- Length of a match of the regex on\w+\s*= at the start of the list, if
any.  The regex engine tries the maximal \w+ run; backtracking to a shorter
run cannot succeed because the following character would be a word
character, which is neither whitespace nor the equals sign. -/
def evtMatchLen (s : Str) : Option Nat :=
  if ciStarts (str "on") s then
    let r := s.drop 2
    let w := r.takeWhile isWordChar
    if w.isEmpty then none
    else
      let r2 := r.drop w.length
      let ws := r2.takeWhile jsIsWs
      match r2.drop ws.length with
      | '=' :: _ => some (2 + w.length + ws.length + 1)
      | _ => none
  else none

/-- Whether on\w+\s*= matches anywhere in the list. -/
def hasEvtHandler (s : Str) : Bool :=
  s.tails.any (fun t => (evtMatchLen t).isSome)

/-- Length of a match of the regex on\w+= (no \s*, the variant used by the
file-processor malware scan) at the start of the list, if any. -/
def evtMatchLenNoWs (s : Str) : Option Nat :=
  if ciStarts (str "on") s then
    let r := s.drop 2
    let w := r.takeWhile isWordChar
    if w.isEmpty then none
    else
      match r.drop w.length with
      | '=' :: _ => some (2 + w.length + 1)
      | _ => none
  else none

/-- Whether on\w+= matches anywhere in the list. -/
def hasEvtHandlerNoWs (s : Str) : Bool :=
  s.tails.any (fun t => (evtMatchLenNoWs t).isSome)

/-- Whether the regex <script[^>]*> matches anywhere: an occurrence of
<script followed, at some distance, by a closing angle bracket.  The lazy
character class [^>]* matches exactly the run up to the first closing
bracket, so the pattern matches if and only if one exists at all. -/
def hasScriptTag (s : Str) : Bool :=
  s.tails.any (fun t => ciStarts (str "<script") t && (t.drop 7).contains '>')

/-- Maximal non-whitespace runs of a list: the model of
text.split(/\s+/).filter(word => word.length > 0).  Fuel recursion; see the
header note. -/
def wordsOfGo : Nat → Str → List Str
  | 0, _ => []
  | _ + 1, [] => []
  | fuel + 1, c :: rest =>
    if jsIsWs c then wordsOfGo fuel rest
    else
      ((c :: rest).takeWhile (fun x => !jsIsWs x)) ::
        wordsOfGo fuel ((c :: rest).dropWhile (fun x => !jsIsWs x))

/-- Words of a list, splitting on whitespace runs. -/
def wordsOf (s : Str) : List Str := wordsOfGo (s.length + 1) s

/-- Word count used for chunk statistics and metadata. -/
def countWords (s : Str) : Nat := (wordsOf s).length

/-- content.replace(/\r\n/g, a newline): collapse CRLF pairs. -/
def replaceCRLF : Str → Str
  | [] => []
  | '\r' :: '\n' :: rest => '\n' :: replaceCRLF rest
  | c :: rest => c :: replaceCRLF rest

/-- content.replace(/\r/g, a newline): map the remaining carriage returns. -/
def mapCR (s : Str) : Str :=
  s.map (fun c => if c == '\r' then '\n' else c)

/-- content.replace(/\n{4,}/g, three newlines): each maximal run of four or
more newlines becomes exactly three.  Fuel recursion; see the header note. -/
def limitNewlinesGo : Nat → Str → Str
  | 0, s => s
  | _ + 1, [] => []
  | fuel + 1, c :: rest =>
    if c == '\n' then
      let run := rest.takeWhile (fun x => x == '\n')
      (if run.length + 1 ≥ 4 then nl3 else List.replicate (run.length + 1) '\n')
        ++ limitNewlinesGo fuel (rest.dropWhile (fun x => x == '\n'))
    else c :: limitNewlinesGo fuel rest

/-- Limit runs of newlines to three. -/
def limitNewlines (s : Str) : Str := limitNewlinesGo (s.length + 1) s

/-- The normalisation prefix of splitIntoSectionsSecure. -/
def normalizeContent (content : Str) : Str :=
  limitNewlines (mapCR (replaceCRLF content))

/-- String.prototype.split on the regex \n\s*\n, leftmost-greedy.  At a
newline the engine takes the maximal whitespace run that still ends in a
newline: the delimiter runs through the last newline of the whitespace run
following the opening newline.  Fuel recursion; see the header note. -/
def splitBlankGo : Nat → Str → Str → List Str
  | 0, cur, s => [cur.reverse ++ s]
  | _ + 1, cur, [] => [cur.reverse]
  | fuel + 1, cur, c :: rest =>
    if c == '\n' then
      let ws := rest.takeWhile jsIsWs
      match lastIdxOf '\n' ws with
      | some j => cur.reverse :: splitBlankGo fuel [] (rest.drop (j + 1))
      | none => splitBlankGo fuel (c :: cur) rest
    else splitBlankGo fuel (c :: cur) rest

/-- Split a list at blank-line separators (the regex \n\s*\n). -/
def splitBlank (s : Str) : List Str := splitBlankGo (s.length + 1) [] s

/-- String.prototype.split on the regex (?<=[.!?])\s+(?=[A-Z]): a split
point sits after sentence punctuation, consumes the maximal whitespace
run, and requires an ASCII capital letter right after it.  Backtracking to
a shorter whitespace run cannot succeed since the next character would be
whitespace, not a capital.  Fuel recursion; see the header note. -/
def splitSentencesGo : Nat → Str → Str → List Str
  | 0, cur, s => [cur.reverse ++ s]
  | _ + 1, cur, [] => [cur.reverse]
  | fuel + 1, cur, c :: rest =>
    if c == '.' || c == '!' || c == '?' then
      let ws := rest.takeWhile jsIsWs
      let nxt := rest.drop ws.length
      if !ws.isEmpty && (match nxt with
          | d :: _ => 'A' ≤ d && d ≤ 'Z'
          | [] => false) then
        (c :: cur).reverse :: splitSentencesGo fuel [] nxt
      else splitSentencesGo fuel (c :: cur) rest
    else splitSentencesGo fuel (c :: cur) rest

/-- Raw sentence split of a text at heuristic sentence boundaries. -/
def splitSentencesRaw (s : Str) : List Str := splitSentencesGo (s.length + 1) [] s

/- ------------------------------------------------------------------ -/
/- DocumentChunker (src/services/documentChunker.js)                  -/
/- ------------------------------------------------------------------ -/

/-- Token counter for a fixed model, the shape in which the injected
this.tokenCounter.countTokens enters the chunker.  The source wraps each
call in try/catch with a character-count estimate as fallback; the model is
a total function, so the catch branch is dead and is omitted. -/
abbrev TokCtr := Str → Nat

/-- this.MAX_CHUNK_COUNT. -/
def MAX_CHUNK_COUNT : Nat := 100

/-- this.MAX_DOCUMENT_LENGTH (5 MB of text). -/
def MAX_DOCUMENT_LENGTH : Nat := 5 * 1024 * 1024

/-- this.overlapTokens, the context-overlap budget between chunks. -/
def overlapTokens : Nat := 200

/-- this.defaultMaxTokens. -/
def defaultMaxTokens : Nat := 6000

/-- A produced text chunk.  The createdAt timestamp of the source
(Date.now()) is omitted: no claim mentions it and wall-clock time is not
modelled.  The tokenCount field is a JavaScript number that is NaN for
chunks built on the emergency character-splitting path, where the stored
value is the pending Promise of an un-awaited countTokens call and
Math.max(1, .) coerces it to NaN; none models NaN, some a genuine count. -/
structure Chunk where
  index : Nat
  text : Str
  tokenCount : Option Nat
  characterCount : Nat
  wordCount : Nat
  preview : Str
  sentences : Nat
deriving Repr, DecidableEq

/-- DocumentChunker.splitIntoSentencesSecure. -/
def splitIntoSentencesSecure (text : Str) : List Str :=
  if text.isEmpty || text.length > 50000 then [text.take 50000]
  else
    ((((splitSentencesRaw text).filter
        (fun s => (jsTrim s).length ≥ 10)).map jsTrim).filter
      (fun s => s.length ≤ 5000)).take 200

/-- Loop body of DocumentChunker.splitLongParagraphSecure: pack sentences
into sections of at most maxLength characters, stopping after more than 50
sections; on the break, as after a normal exit, a pending section is still
flushed. -/
def splitLongParagraphGo (maxLength : Nat) :
    List Str → List Str → Str → List Str
  | [], secs, cur => if cur.isEmpty then secs else secs ++ [jsTrim cur]
  | s :: rest, secs, cur =>
    let packed :=
      if cur.length + s.length > maxLength && !cur.isEmpty then
        (secs ++ [jsTrim cur], s)
      else (secs, cur ++ (if cur.isEmpty then [] else [' ']) ++ s)
    if packed.1.length > 50 then
      (if packed.2.isEmpty then packed.1 else packed.1 ++ [jsTrim packed.2])
    else splitLongParagraphGo maxLength rest packed.1 packed.2

/-- DocumentChunker.splitLongParagraphSecure. -/
def splitLongParagraphSecure (paragraph : Str) (maxLength : Nat) : List Str :=
  splitLongParagraphGo maxLength (splitIntoSentencesSecure paragraph) [] []

/-- Refinement loop of DocumentChunker.splitIntoSectionsSecure: short
sections are trimmed and kept, long ones split, and the loop stops once
more than MAX_CHUNK_COUNT * 2 sections have been produced. -/
def refineSectionsGo : List Str → List Str → List Str
  | [], acc => acc
  | s :: rest, acc =>
    let acc' :=
      if s.length ≤ 3000 then acc ++ [jsTrim s]
      else acc ++ splitLongParagraphSecure s 3000
    if acc'.length > MAX_CHUNK_COUNT * 2 then acc'
    else refineSectionsGo rest acc'

/-- DocumentChunker.splitIntoSectionsSecure. -/
def splitIntoSectionsSecure (content : Str) : List Str :=
  let sections :=
    (splitBlank (normalizeContent content)).filter
      (fun s => (jsTrim s).length ≥ 10)
  (refineSectionsGo sections []).filter (fun s => !(jsTrim s).isEmpty)

/-- Chunk record built by DocumentChunker.createChunkSecure once the text
has passed the emptiness and length gates.  Math.max(1, tokenCount)
returns NaN when tokenCount is NaN (Math.max propagates NaN), so the map
keeps none at none and otherwise clamps the count to at least 1. -/
def mkChunk (ct : Str) (tokenCount : Option Nat) (index : Nat) : Chunk :=
  { index := index
    text := ct
    tokenCount := tokenCount.map (fun t => max 1 t)
    characterCount := ct.length
    wordCount := countWords ct
    preview := if ct.length > 200 then ct.take 200 ++ str "..." else ct
    sentences := max 1 (splitIntoSentencesSecure ct).length }

/-- DocumentChunker.createChunkSecure.  The source recurses once on the
truncation of an overlong text; since the truncated text has length 100000
the recursion always terminates after that single round, and it is unrolled
here. -/
def createChunkSecure (text : Str) (tokenCount : Option Nat) (index : Nat) :
    Option Chunk :=
  let ct := jsTrim text
  if ct.isEmpty then none
  else if ct.length > 100000 then
    let ct2 := jsTrim (ct.take 100000)
    if ct2.isEmpty then none else some (mkChunk ct2 tokenCount index)
  else some (mkChunk ct tokenCount index)

/-- A raw text/token pair produced by character-level splitting.  In the
source the tokenCount field holds the un-awaited Promise returned by the
async countTokens, which every later numeric use coerces to NaN; the model
stores none. -/
structure RawChunk where
  text : Str
  tokenCount : Option Nat
deriving Repr, DecidableEq

/-- Loop of DocumentChunker.splitByCharacterLimitSecure.  The attempts
counter of the source (capped at 20) is the structural fuel here, so the
model is exact.  The two boundary comparisons multiply through the float
literals 0.5 and 0.3 of the source; 0.5 is exact, and for 0.3 the float
product differs from the exact rational by less than 3e-12, which can only
matter when the space index lands exactly on the rational boundary - a
case no theorem below depends on.  The source assigns
tokenCount = this.tokenCounter.countTokens(chunk, model) with no await
inside a try/catch; calling an async function never throws synchronously,
so the catch arm (Math.ceil of length / 4) is dead and the stored value is
the pending Promise, modelled as none. -/
def splitByCharLoop (text : Str) (maxChars : Nat) :
    Nat → Nat → List RawChunk
  | 0, _ => []
  | fuel + 1, start =>
    if start < text.length then
      let end0 := min (start + maxChars) text.length
      let e :=
        if end0 < text.length then
          let lastSpace := jsLastIndexOf text ' ' end0
          let lastPunct :=
            max (jsLastIndexOf text '.' end0)
              (max (jsLastIndexOf text '!' end0) (jsLastIndexOf text '?' end0))
          if 2 * lastPunct > 2 * (start : Int) + (maxChars : Int) then
            (lastPunct + 1).toNat
          else if 10 * lastSpace > 10 * (start : Int) + 3 * (maxChars : Int) then
            lastSpace.toNat
          else end0
        else end0
      let chunk := jsTrim ((text.drop start).take (e - start))
      let rest := splitByCharLoop text maxChars fuel e
      if !chunk.isEmpty && chunk.length ≥ 10 then
        ⟨chunk, none⟩ :: rest
      else rest
    else []

/-- DocumentChunker.splitByCharacterLimitSecure.  The token counter is
kept in the signature, mirroring the injected this.tokenCounter, but it
never influences the result: the source calls the async countTokens
without await and stores only the resulting pending Promise in each raw
chunk, so every emergency chunk leaves here with a NaN-to-be token
count. -/
def splitByCharacterLimitSecure (_tc : TokCtr) (text : Str) (maxTokens : Nat) :
    List RawChunk :=
  splitByCharLoop text (min (maxTokens * 3) 10000) 20 0

/-- chunkIndex++ mapping of character chunks through createChunkSecure. -/
def mapCreateIdx : List RawChunk → Nat → List (Option Chunk)
  | [], _ => []
  | rc :: rest, i => createChunkSecure rc.text rc.tokenCount i :: mapCreateIdx rest (i + 1)

/-- Loop of DocumentChunker.splitLargeSectionSecure: greedy sentence
packing with a per-call chunk ceiling; the continue after the oversized-
sentence branch skips the ceiling check, like the source. -/
def splitLargeLoop (tc : TokCtr) (maxTokens : Nat) :
    List Str → List (Option Chunk) → Str → Nat → Nat → List (Option Chunk)
  | [], chunks, cur, curTok, idx =>
    if cur.isEmpty then chunks
    else chunks ++ [createChunkSecure cur (some curTok) idx]
  | s :: rest, chunks, cur, curTok, idx =>
    if s.isEmpty then splitLargeLoop tc maxTokens rest chunks cur curTok idx
    else
      let st := tc s
      if st > maxTokens then
        let flushed :=
          if cur.isEmpty then (chunks, idx)
          else (chunks ++ [createChunkSecure cur (some curTok) idx], idx + 1)
        let ccs := splitByCharacterLimitSecure tc s maxTokens
        splitLargeLoop tc maxTokens rest
          (flushed.1 ++ mapCreateIdx ccs flushed.2) [] 0 (flushed.2 + ccs.length)
      else
        let packed :=
          if curTok + st > maxTokens && !cur.isEmpty then
            (chunks ++ [createChunkSecure cur (some curTok) idx], s, st, idx + 1)
          else (chunks, cur ++ (if cur.isEmpty then [] else [' ']) ++ s, curTok + st, idx)
        if packed.1.length ≥ MAX_CHUNK_COUNT - 5 then
          (if packed.2.1.isEmpty then packed.1
           else packed.1 ++
             [createChunkSecure packed.2.1 (some packed.2.2.1) packed.2.2.2])
        else splitLargeLoop tc maxTokens rest packed.1 packed.2.1 packed.2.2.1 packed.2.2.2

/-- DocumentChunker.splitLargeSectionSecure. -/
def splitLargeSectionSecure (tc : TokCtr) (section_ : Str) (maxTokens : Nat)
    (startIndex : Nat) : List (Option Chunk) :=
  splitLargeLoop tc maxTokens (splitIntoSentencesSecure section_) [] [] 0 startIndex

/-- Shared shape of the sentence-accumulation loops in
DocumentChunker.addOverlapSecure and DocumentChunker.getContextStartSecure:
both walk a window of sentences, skip empty entries, and append each
sentence while the running token total stays within overlapTokens,
breaking at the first sentence that does not fit. -/
def sentenceAccumLoop (tc : TokCtr) : List Str → Str → Nat → Str
  | [], acc, _ => acc
  | s :: rest, acc, accTok =>
    if s.isEmpty then sentenceAccumLoop tc rest acc accTok
    else if accTok + tc s ≤ overlapTokens then
      sentenceAccumLoop tc rest
        (acc ++ (if acc.isEmpty then [] else [' ']) ++ s) (accTok + tc s)
    else acc

/-- DocumentChunker.addOverlapSecure: prepend to the chunk up to
overlapTokens of the trailing (at most five) sentences of the previous
section. -/
def addOverlapSecure (tc : TokCtr) (currentChunk prevSection : Str) : Str :=
  if prevSection.isEmpty || overlapTokens ≤ 0 then currentChunk
  else
    let sentences := splitIntoSentencesSecure prevSection
    let ov := sentenceAccumLoop tc (sentences.drop (sentences.length - 5)) [] 0
    if ov.isEmpty then currentChunk else ov ++ nl2 ++ currentChunk

/-- DocumentChunker.getContextStartSecure: up to overlapTokens taken from
the first (at most three) sentences of the text. -/
def getContextStartSecure (tc : TokCtr) (text : Str) : Str :=
  if text.isEmpty then []
  else sentenceAccumLoop tc ((splitIntoSentencesSecure text).take 3) [] 0

/-- Main loop of DocumentChunker.performChunking.  The state is
(chunks, currentChunk, currentTokens, chunkIndex); the previous section
(sections[i - 1], the empty string at the start) is threaded alongside.
Both break conditions of the source exit the loop with the state intact;
the final-flush of a pending chunk happens in performChunking below. -/
def performChunkingLoop (tc : TokCtr) (maxTokens : Nat) :
    List Str → Str → List (Option Chunk) × Str × Nat × Nat →
    List (Option Chunk) × Str × Nat × Nat
  | [], _, st => st
  | s :: rest, prev, (chunks, cur, curTok, idx) =>
    let sectionTokens := tc s
    if sectionTokens > maxTokens then
      let flushed :=
        if (jsTrim cur).isEmpty then (chunks, cur, curTok, idx)
        else (chunks ++ [createChunkSecure cur (some curTok) idx], [], 0, idx + 1)
      let sub := splitLargeSectionSecure tc s maxTokens flushed.2.2.2
      let chunks2 := flushed.1 ++ sub
      if chunks2.length > MAX_CHUNK_COUNT then
        (chunks2, flushed.2.1, flushed.2.2.1, flushed.2.2.2 + sub.length)
      else
        performChunkingLoop tc maxTokens rest s
          (chunks2, flushed.2.1, flushed.2.2.1, flushed.2.2.2 + sub.length)
    else
      let packed :=
        if curTok + sectionTokens > maxTokens && !(jsTrim cur).isEmpty then
          let ctx := getContextStartSecure tc cur
          let newCur := ctx ++ (if ctx.isEmpty then [] else nl2) ++ s
          (chunks ++
            [createChunkSecure (addOverlapSecure tc cur prev) (some curTok) idx],
            newCur, tc newCur, idx + 1)
        else (chunks, cur ++ (if cur.isEmpty then [] else nl2) ++ s,
          curTok + sectionTokens, idx)
      if packed.1.length > MAX_CHUNK_COUNT - 10 then packed
      else performChunkingLoop tc maxTokens rest s packed

/-- DocumentChunker.performChunking. -/
def performChunking (tc : TokCtr) (content : Str) (maxTokens : Nat) :
    List (Option Chunk) :=
  let sections := splitIntoSectionsSecure content
  let st := performChunkingLoop tc maxTokens sections [] ([], [], 0, 1)
  if (jsTrim st.2.1).isEmpty then st.1
  else st.1 ++ [createChunkSecure st.2.1 (some st.2.2.1) st.2.2.2]

/-- DocumentChunker.validateInput.  The maxTokens parameter is an integer
(the source rejects non-integer numbers with Number.isInteger, which the
Int model makes implicit).  The model string only has its truthiness
checked. -/
def validateInput (content : Str) (maxTokens : Int) (model : String) :
    Except String Unit :=
  if content.isEmpty then .error "Content must be a non-empty string"
  else if content.length = 0 then .error "Content is empty"
  else if content.length > MAX_DOCUMENT_LENGTH then .error "Document too large"
  else if maxTokens < 100 || maxTokens > 32000 then
    .error "maxTokens must be an integer between 100 and 32000"
  else if model = "" then .error "Model must be specified"
  else if hasScriptTag (content.take 10000)
      || containsCI (str "javascript:") (content.take 10000)
      || containsCI (str "vbscript:") (content.take 10000)
      || hasEvtHandler (content.take 10000) then
    .error "Content contains potentially harmful patterns"
  else .ok ()

/-- The conjunction of the three chained filter predicates of
DocumentChunker.validateChunks (non-blank text, positive token count, and
token count within 110 percent of the budget); the null filter of the
source is the filterMap in validChunksOf.  The comparison
tokenCount <= maxTokens * 1.1 is modelled as
10 * tokenCount <= 11 * maxTokens: the float product maxTokens * 1.1 never
falls below the exact rational (the double nearest 1.1 exceeds 11/10) and
exceeds it by less than 3e-12, so both comparisons agree on integers.  A
NaN token count (none) fails both comparisons, since every comparison
with NaN is false in JavaScript, so emergency chunks never pass. -/
def chunkFilter (maxTokens : Nat) (c : Chunk) : Bool :=
  !(jsTrim c.text).isEmpty &&
    match c.tokenCount with
    | some t => decide (0 < t) && decide (10 * t ≤ 11 * maxTokens)
    | none => false

/-- The validChunks list of DocumentChunker.validateChunks: null entries
dropped, then the filter chain applied. -/
def validChunksOf (chunks : List (Option Chunk)) (maxTokens : Nat) : List Chunk :=
  (chunks.filterMap id).filter (chunkFilter maxTokens)

/-- DocumentChunker.validateChunks: keep the filtered chunks (capped at
MAX_CHUNK_COUNT); if filtering emptied a non-empty list, fall back to the
first chunk that has text, without re-checking its token count. -/
def validateChunks (chunks : List (Option Chunk)) (maxTokens : Nat) :
    List Chunk :=
  if (validChunksOf chunks maxTokens).isEmpty && !chunks.isEmpty then
    match (chunks.filterMap id).find? (fun c => !c.text.isEmpty) with
    | some best => [best]
    | none => (validChunksOf chunks maxTokens).take MAX_CHUNK_COUNT
  else (validChunksOf chunks maxTokens).take MAX_CHUNK_COUNT

/-- DocumentChunker.chunkDocument.  The timeout race and the statistics
update are erased (no real time, no mutable stats in the model); the
catch-and-rewrap of the source becomes the error-message prefix. -/
def chunkDocument (tc : TokCtr) (content : Str) (maxTokens : Int)
    (model : String) : Except String (List Chunk) :=
  match validateInput content maxTokens model with
  | .error e => .error ("Document chunking failed: " ++ e)
  | .ok _ =>
    .ok (validateChunks (performChunking tc content maxTokens.toNat)
      maxTokens.toNat)

/- ------------------------------------------------------------------ -/
/- UniversalTokenCounter (src/unnamed/part_002, second module)        -/
/- ------------------------------------------------------------------ -/

/-- One entry of the static model database.  Dollar costs per 1K tokens
are exact rationals; the field ratioApprox is named approximationRatio in
the source and is absent (none) for models with an exact encoder. -/
structure ModelSpec where
  provider : String
  contextWindow : Nat
  inputCost : ℚ
  outputCost : ℚ
  hasEncoder : Bool
  ratioApprox : Option ℚ
  category : String
deriving Repr, DecidableEq

/-- The modelSpecs table of UniversalTokenCounter.loadModelDatabase.
Rational constants are written with mkRat (for instance mkRat 3 100 for the
decimal literal 0.03) because the Rat field operations are irreducible to
the kernel and the entries must evaluate. -/
def modelSpecsList : List (String × ModelSpec) :=
  [("gpt-4", ⟨"openai", 8192, mkRat 3 100, mkRat 6 100, true, none, "flagship"⟩),
   ("gpt-4-turbo", ⟨"openai", 128000, mkRat 1 100, mkRat 3 100, true, none, "flagship"⟩),
   ("gpt-4o", ⟨"openai", 128000, mkRat 25 10000, mkRat 1 100, true, none, "flagship"⟩),
   ("gpt-4o-mini", ⟨"openai", 128000, mkRat 15 100000, mkRat 6 10000, true, none, "efficient"⟩),
   ("gpt-3.5-turbo", ⟨"openai", 4096, mkRat 15 10000, mkRat 2 1000, true, none, "efficient"⟩),
   ("claude-3-opus", ⟨"anthropic", 200000, mkRat 15 1000, mkRat 75 1000, false, some (mkRat 12 10), "flagship"⟩),
   ("claude-3-sonnet", ⟨"anthropic", 200000, mkRat 3 1000, mkRat 15 1000, false, some (mkRat 12 10), "balanced"⟩),
   ("claude-3-haiku", ⟨"anthropic", 200000, mkRat 25 100000, mkRat 125 100000, false, some (mkRat 12 10), "efficient"⟩),
   ("claude-3.5-sonnet", ⟨"anthropic", 200000, mkRat 3 1000, mkRat 15 1000, false, some (mkRat 12 10), "flagship"⟩),
   ("gemini-1.5-pro", ⟨"google", 2000000, mkRat 125 100000, mkRat 5 1000, false, some (mkRat 8 10), "flagship"⟩),
   ("gemini-1.5-flash", ⟨"google", 1000000, mkRat 75 1000000, mkRat 3 10000, false, some (mkRat 8 10), "efficient"⟩),
   ("gemini-pro", ⟨"google", 32768, mkRat 5 10000, mkRat 15 10000, false, some (mkRat 8 10), "balanced"⟩),
   ("deepseek-chat", ⟨"deepseek", 32768, mkRat 14 100000, mkRat 28 100000, false, some (mkRat 1 1), "efficient"⟩),
   ("deepseek-coder", ⟨"deepseek", 16384, mkRat 14 100000, mkRat 28 100000, false, some (mkRat 1 1), "specialized"⟩),
   ("mistral-large", ⟨"mistral", 32768, mkRat 4 1000, mkRat 12 1000, false, some (mkRat 11 10), "flagship"⟩),
   ("mistral-medium", ⟨"mistral", 32768, mkRat 275 100000, mkRat 81 10000, false, some (mkRat 11 10), "balanced"⟩),
   ("llama-3-70b", ⟨"meta", 8192, mkRat 59 100000, mkRat 79 100000, false, some (mkRat 9 10), "balanced"⟩),
   ("llama-3-8b", ⟨"meta", 8192, mkRat 5 100000, mkRat 8 100000, false, some (mkRat 9 10), "efficient"⟩)]

/-- The alias table of UniversalTokenCounter.addModelAliases. -/
def aliasesFor (modelId : String) : List String :=
  if modelId = "gpt-4" then ["gpt4", "gpt-4-0613"]
  else if modelId = "gpt-4-turbo" then ["gpt-4-turbo-preview", "gpt-4-1106-preview"]
  else if modelId = "gpt-4o" then ["gpt-4o-2024-05-13"]
  else if modelId = "gpt-3.5-turbo" then ["gpt3.5", "gpt-3.5", "gpt-3.5-turbo-0613"]
  else if modelId = "claude-3-opus" then ["claude-opus", "opus"]
  else if modelId = "claude-3-sonnet" then ["claude-sonnet", "sonnet"]
  else if modelId = "claude-3-haiku" then ["claude-haiku", "haiku"]
  else if modelId = "claude-3.5-sonnet" then ["claude-3.5", "claude-3.5-sonnet-20241022"]
  else if modelId = "gemini-1.5-pro" then ["gemini-pro-1.5", "gemini-1.5"]
  else if modelId = "gemini-pro" then ["gemini", "gemini-pro-vision"]
  else []

/-- this.modelDatabase after initialisation: every canonical id and every
alias maps to its spec.  Keys are pairwise distinct in the source data, so
the association list faithfully models the Map. -/
def modelDatabase : List (String × ModelSpec) :=
  modelSpecsList.flatMap
    (fun e => (e.1, e.2) :: (aliasesFor e.1).map (fun a => (a, e.2)))

/-- Map.get on the model database. -/
def dbLookup (name : String) : Option ModelSpec :=
  (modelDatabase.find? (fun e => e.1 = name)).map (·.2)

/-- UniversalTokenCounter.normalizeModelName: lower-case and trim.
Computed through the character-list model so that it evaluates inside the
kernel. -/
def normalizeModelName (model : String) : String :=
  String.mk (jsTrim (model.toList.map Char.toLower))

/-- Math.round: floor after adding one half (Math.round sends halves
toward positive infinity). -/
def jsRound (q : ℚ) : Int := ⌊q + 1/2⌋

/-- Math.round(base * r), computed on the numerator and denominator of the
ratio so that it evaluates inside the kernel (Rat multiplication and
addition are irreducible there): the product plus one half equals
(2 * base * num + den) / (2 * den), and fdiv is floor division.  The lemma
jsRoundScaled_eq below proves it equal to jsRound of the product. -/
def jsRoundScaled (base : Nat) (r : ℚ) : Int :=
  (2 * (base : Int) * r.num + (r.den : Int)).fdiv (2 * (r.den : Int))

/-- UniversalTokenCounter.fallbackTokenCount: the default (GPT-4) encoder.
The try/catch with a character-count estimate is dead code in the total
model. -/
def fallbackTokenCount (fb : TokCtr) (text : Str) : Nat := fb text

/-- UniversalTokenCounter.countTokens, parametrised by the loaded encoder
map (this.encoders) and the fallback encoder (this.fallbackEncoder, the
GPT-4 tiktoken encoder).  A falsy text returns 0; an unknown model falls
back to the default encoder; a model with an exact encoder uses it; other
models scale the default count by the approximation ratio and round. -/
def countTokens (encoders : String → Option TokCtr) (fb : TokCtr)
    (text : Str) (model : String) : Nat :=
  if text.isEmpty then 0
  else
    let nm := normalizeModelName model
    match dbLookup nm with
    | none => fallbackTokenCount fb text
    | some spec =>
      if spec.hasEncoder then ((encoders nm).getD fb) text
      else (jsRoundScaled (fb text) (spec.ratioApprox.getD 1)).toNat

/- ------------------------------------------------------------------ -/
/- SecureFileProcessor (src/unnamed/part_001)                         -/
/- ------------------------------------------------------------------ -/

/-- this.MAX_FILE_SIZE (50 MB). -/
def MAX_FILE_SIZE : Nat := 50 * 1024 * 1024

/-- this.MAX_CONCURRENT_PROCESSING. -/
def MAX_CONCURRENT_PROCESSING : Nat := 10

/-- The result of a format extractor: normalised text and page count.
Format-specific metadata fields are omitted; no claim refers to them. -/
structure ExtractedContent where
  text : Str
  pageCount : Nat
deriving Repr, DecidableEq

/-- FileExtractor.supportedTypes (also used by isSupported). -/
def supportedTypes (mime : String) : Option String :=
  if mime = "application/pdf" then some "pdf"
  else if mime = "application/vnd.openxmlformats-officedocument.wordprocessingml.document" then some "docx"
  else if mime = "application/vnd.openxmlformats-officedocument.spreadsheetml.sheet" then some "xlsx"
  else if mime = "application/vnd.openxmlformats-officedocument.presentationml.presentation" then some "pptx"
  else if mime = "text/plain" then some "txt"
  else none

/-- FileExtractor.isSupported. -/
def isSupported (mime : String) : Bool := (supportedTypes mime).isSome

/-- The signatures table of validateFileSignature.  text/plain maps to
null in the source and unsupported keys are undefined; both are none here,
and both skip the check, exactly as the falsiness test in the source. -/
def signatureFor (mime : String) : Option (List Nat) :=
  if mime = "application/pdf" then some [0x25, 0x50, 0x44, 0x46]
  else if mime = "application/vnd.openxmlformats-officedocument.wordprocessingml.document" then some [0x50, 0x4B, 0x03, 0x04]
  else if mime = "application/vnd.openxmlformats-officedocument.spreadsheetml.sheet" then some [0x50, 0x4B, 0x03, 0x04]
  else if mime = "application/vnd.openxmlformats-officedocument.presentationml.presentation" then some [0x50, 0x4B, 0x03, 0x04]
  else none

/-- SecureFileProcessor.validateFileSignature: compare the leading bytes
of the buffer with the expected magic number.  A buffer shorter than the
signature compares unequal, as in the source, where the element-wise
comparison meets undefined. -/
def validateFileSignature (buffer : List Nat) (mime : String) :
    Except String Unit :=
  match signatureFor mime with
  | none => .ok ()
  | some expected =>
    if buffer.take expected.length = expected then .ok ()
    else .error "File signature does not match declared MIME type. File may be corrupted or spoofed."

/-- The invalid-character class of isValidFileName:
angle brackets, colon, double quote, pipe, question mark, asterisk and
control characters x00 to x1f. -/
def isInvalidFileChar (c : Char) : Bool :=
  c == '<' || c == '>' || c == ':' || c == '"' || c == '|' || c == '?' ||
    c == '*' || decide (c.toNat ≤ 0x1f)

/-- Whether the dotted prefix of a file name is a reserved device name
(CON, PRN, AUX, NUL, COM1-9, LPT1-9, case-insensitive). -/
def isReservedName (s : Str) : Bool :=
  let u := s.map Char.toUpper
  u == str "CON" || u == str "PRN" || u == str "AUX" || u == str "NUL" ||
    (u.length = 4 && (u.take 3 == str "COM" || u.take 3 == str "LPT") &&
      (match u.drop 3 with
       | [d] => '1' ≤ d && d ≤ '9'
       | _ => false))

/-- Substring test for the path-traversal pattern of two dots. -/
def hasDotDot (s : Str) : Bool :=
  s.tails.any (fun t => t.take 2 == str "..")

/-- SecureFileProcessor.isValidFileName. -/
def isValidFileName (name : Str) : Bool :=
  !name.isEmpty && name.length ≤ 255 && !(name.any isInvalidFileChar) &&
    !hasDotDot name && !isReservedName (name.takeWhile (fun c => c != '.'))

/-- The byte-to-text view used by the malware scan:
buffer.toString(utf8, 0, 10000), modelled as a byte-wise decode.  This is
exact on ASCII bytes, which covers every byte the scanned patterns can
match. -/
def bufferToText (buffer : List Nat) : Str :=
  (buffer.take 10000).map Char.ofNat

/-- SecureFileProcessor.scanForMaliciousContent: pattern scan over the
first 10KB of the raw bytes. -/
def scanForMaliciousContent (buffer : List Nat) : Except String Unit :=
  let content := bufferToText buffer
  if containsCI (str "javascript:") content ||
      containsCI (str "<script") content ||
      containsCI (str "vbscript:") content ||
      hasEvtHandlerNoWs content ||
      containsCI (str "%3Cscript") content then
    .error "File contains potentially malicious content and cannot be processed."
  else .ok ()

/-- SecureFileProcessor.validateFileSecurely: size, name, type, magic
number and malware scan, in source order, failing closed at the first
violation. -/
def validateFileSecurely (buffer : List Nat) (name : Str) (mime : String) :
    Except String Unit :=
  if buffer.length > MAX_FILE_SIZE then
    .error "File too large. Maximum: 50MB"
  else if !isValidFileName name then
    .error "Invalid file name. File names cannot contain path separators or special characters."
  else if !isSupported mime then
    .error "Unsupported file type"
  else
    match validateFileSignature buffer mime with
    | .error e => .error e
    | .ok _ => scanForMaliciousContent buffer

/-- The character class kept by sanitizeFileName: [a-zA-Z0-9._-]. -/
def isSafeFileChar (c : Char) : Bool :=
  ('a' ≤ c && c ≤ 'z') || ('A' ≤ c && c ≤ 'Z') || ('0' ≤ c && c ≤ '9') ||
    c == '.' || c == '_' || c == '-'

/-- SecureFileProcessor.sanitizeFileName: replace every character outside
the safe class with an underscore and cap the length at 100. -/
def sanitizeFileName (name : Str) : Str :=
  (name.map (fun c => if isSafeFileChar c then c else '_')).take 100

/-- The control-character class removed by sanitizeContent:
x00-x08, x0B, x0C, x0E-x1F and x7F. -/
def isCtrlChar (c : Char) : Bool :=
  decide (c.toNat ≤ 8) || c == '\x0B' || c == '\x0C' ||
    (decide (0x0E ≤ c.toNat) && decide (c.toNat ≤ 0x1F)) || c == '\x7F'

/-- Replace lazy script blocks, the regex <script[\s\S]*?<\/script> with
the marker [SCRIPT_REMOVED].  Fuel recursion; see the header note. -/
def replaceScriptBlocksGo : Nat → Str → Str
  | 0, s => s
  | _ + 1, [] => []
  | fuel + 1, c :: rest =>
    if ciStarts (str "<script") (c :: rest) then
      match findCIIdx (str "</script>") ((c :: rest).drop 7) with
      | some j =>
        str "[SCRIPT_REMOVED]" ++ replaceScriptBlocksGo fuel ((c :: rest).drop (7 + j + 9))
      | none => c :: replaceScriptBlocksGo fuel rest
    else c :: replaceScriptBlocksGo fuel rest

/-- Replace script blocks with inert markers. -/
def replaceScriptBlocks (s : Str) : Str := replaceScriptBlocksGo (s.length + 1) s

/-- Global case-insensitive literal replacement.  Fuel recursion; see the
header note. -/
def replaceCIGo (pat repl : Str) : Nat → Str → Str
  | 0, s => s
  | _ + 1, [] => []
  | fuel + 1, c :: rest =>
    if !pat.isEmpty && ciStarts pat (c :: rest) then
      repl ++ replaceCIGo pat repl fuel ((c :: rest).drop pat.length)
    else c :: replaceCIGo pat repl fuel rest

/-- Replace every case-insensitive occurrence of a literal pattern. -/
def replaceCI (pat repl s : Str) : Str := replaceCIGo pat repl (s.length + 1) s

/-- Replace matches of on\w+\s*= with the marker
[EVENT_HANDLER_REMOVED].  Fuel recursion; see the header note. -/
def replaceEvtGo : Nat → Str → Str
  | 0, s => s
  | _ + 1, [] => []
  | fuel + 1, c :: rest =>
    match evtMatchLen (c :: rest) with
    | some n => str "[EVENT_HANDLER_REMOVED]" ++ replaceEvtGo fuel ((c :: rest).drop n)
    | none => c :: replaceEvtGo fuel rest

/-- Replace inline event handlers with inert markers. -/
def replaceEvtHandlers (s : Str) : Str := replaceEvtGo (s.length + 1) s

/-- SecureFileProcessor.sanitizeContent: the replacement cascade of the
source, in order, followed by control-character removal and a trim. -/
def sanitizeContent (content : Str) : Str :=
  jsTrim ((replaceEvtHandlers (replaceCI (str "vbscript:") (str "[VBSCRIPT_REMOVED]")
    (replaceCI (str "javascript:") (str "[JAVASCRIPT_REMOVED]")
      (replaceScriptBlocks content)))).filter (fun c => !isCtrlChar c))

/-- The shape of a successful processFile result.  The fields
processingId, tokenAnalysis, per-chunk response reshaping and the security
block are omitted: they are not referenced by any claim and the first
depends on random UUIDs and wall-clock time.  No value of this type is
ever produced: the result construction in the source sits after the
statement that throws (see processFile, stated after extractContent below,
which it invokes). -/
structure ProcessResult where
  fileName : Str
  fileSize : Nat
  mimeType : String
  extractedText : Str
  chunks : List Chunk
deriving Repr, DecidableEq

/- ------------------------------------------------------------------ -/
/- FileExtractor (src/unnamed/part_002, first module)                 -/
/- ------------------------------------------------------------------ -/

/-- this.MAX_TEXT_LENGTH (10 MB of extracted text). -/
def MAX_TEXT_LENGTH : Nat := 10 * 1024 * 1024

/-- this.cacheExpiry (30 minutes, in milliseconds). -/
def cacheExpiry : Nat := 30 * 60 * 1000

/-- One entry of the extraction cache. -/
structure CacheEntry where
  result : ExtractedContent
  timestamp : Nat
deriving Repr, DecidableEq

/-- The fs.stat fields entering the cache key. -/
structure FileStats where
  size : Nat
  mtimeMs : Nat
deriving Repr, DecidableEq

/-- FileExtractor.validateExtractedContent. -/
def validateExtractedContent (r : ExtractedContent) : Except String Unit :=
  if r.text.isEmpty then .error "No text content extracted"
  else if r.text.length = 0 then .error "Extracted text is empty"
  else if r.text.length > MAX_TEXT_LENGTH then .error "Extracted text too long"
  else if containsCI (str "<script") r.text ||
      containsCI (str "javascript:") r.text ||
      containsCI (str "vbscript:") r.text ||
      containsCI (str "data:text/html") r.text then
    .error "Extracted content contains potentially harmful patterns"
  else .ok ()

/-- FileExtractor.extractContent, returning the result together with the
cache state after the call.  The performExtraction dispatch (which reads
the file) enters as the parameter performX, fs.stat as the parameter stat
(none when stat throws and the first catch fires), and Date.now() as now.
The md5 cache key is modelled by its preimage string, which is at least as
collision-free as the digest.

The source declares the cacheKey constant inside the first try block and
then evaluates cacheKey again after extraction and validation, outside
that block scope; that evaluation throws a ReferenceError, which the outer
catch rewraps, so every invocation that completes extraction and
validation returns an error and the cache write is never reached.  The
final branch below models exactly that. -/
def extractContent (performX : Except String ExtractedContent)
    (stat : Option FileStats) (now : Nat)
    (cache : List (String × CacheEntry)) (filePath : String) (mime : String) :
    Except String ExtractedContent × List (String × CacheEntry) :=
  match supportedTypes mime with
  | none => (.error ("Unsupported file type: " ++ mime), cache)
  | some ftype =>
    let hit : Option ExtractedContent :=
      match stat with
      | some st =>
        let cacheKey := filePath ++ toString st.size ++ toString st.mtimeMs
        match cache.find? (fun e => e.1 = cacheKey) with
        | some e => if now - e.2.timestamp < cacheExpiry then some e.2.result else none
        | none => none
      | none => none
    match hit with
    | some r => (.ok r, cache)
    | none =>
      match performX with
      | .error e => (.error (ftype ++ " extraction failed: " ++ e), cache)
      | .ok result =>
        match validateExtractedContent result with
        | .error e => (.error (ftype ++ " extraction failed: " ++ e), cache)
        | .ok _ =>
          (.error (ftype ++ " extraction failed: cacheKey is not defined"), cache)

/-- SecureFileProcessor.processFile.  Validation and the busy check run
before the try block, so their errors propagate unwrapped (activeCount is
the size of this.activeProcessing at entry); errors thrown inside the try
are rewrapped with the File-processing-failed prefix.  The extraction step
awaits this.fileExtractor.extractContent on the secure temp file, modelled
by extractContent above applied to its external parameters (the extraction
oracle performX, fs.stat, Date.now(), the extractor's cache and the temp
file path); the timeout race is dropped.  After content sanitisation the
source calls the async tokenCounter.analyzeText and the async
documentChunker.chunkDocument both WITHOUT await, so both locals hold
pending Promises, and chunks.map in the result construction throws
TypeError: chunks.map is not a function, rewrapped by the catch.  The
injected chunker and token counter therefore never influence the result,
options.model and options.maxTokensPerChunk are consumed only by the
discarded Promise, and no successful result is ever produced. -/
def processFile (performX : Except String ExtractedContent)
    (stat : Option FileStats) (now : Nat)
    (cache : List (String × CacheEntry)) (tempFilePath : String)
    (activeCount : Nat) (buffer : List Nat) (fileName : Str) (mime : String)
    (_optModel : Option String) (_optMaxTokens : Option Int) :
    Except String ProcessResult :=
  match validateFileSecurely buffer fileName mime with
  | .error e => .error e
  | .ok _ =>
    if activeCount ≥ MAX_CONCURRENT_PROCESSING then
      .error "Server busy. Too many files being processed. Please try again later."
    else
      match (extractContent performX stat now cache tempFilePath mime).1 with
      | .error e => .error ("File processing failed: " ++ e)
      | .ok ec =>
        if (jsTrim ec.text).isEmpty then
          .error "File processing failed: No extractable content found in file"
        else
          .error "File processing failed: chunks.map is not a function"

/- ------------------------------------------------------------------ -/
/- Proof-support definitions                                          -/
/- ------------------------------------------------------------------ -/

/-- Lists of optional chunks in which every present chunk whose token
count is a number at all has a positive one: the invariant maintained by
every chunk-producing loop, because each record passes through
createChunkSecure and its Math.max(1, .).  Chunks from the emergency path
carry NaN (none) instead, about which the invariant says nothing. -/
def AllMin1 (l : List (Option Chunk)) : Prop :=
  ∀ c : Chunk, some c ∈ l → ∀ t, c.tokenCount = some t → 1 ≤ t

/-- Sentences joined by single spaces, the shape produced by the
sentence-accumulation loops. -/
def joinSp : List Str → Str
  | [] => []
  | s :: rest => s ++ rest.flatMap (fun x => ' ' :: x)

/-- Total token count of a list of sentences under a fixed counter. -/
def tokSum (tc : TokCtr) (l : List Str) : Nat := (l.map tc).sum

/-- The window of sentences addOverlapSecure draws from: the last (at most
five) sentences of the previous section, empty entries skipped. -/
def overlapWindow (prevSection : Str) : List Str :=
  ((splitIntoSentencesSecure prevSection).drop
    ((splitIntoSentencesSecure prevSection).length - 5)).filter
    (fun s => !s.isEmpty)

/-- The window of sentences getContextStartSecure draws from: the first
(at most three) sentences of the text, empty entries skipped. -/
def contextWindow3 (text : Str) : List Str :=
  ((splitIntoSentencesSecure text).take 3).filter (fun s => !s.isEmpty)

/-- The trailing k sentences of a list, joined by spaces: the shape an
overlap taken as whole sentences from the end of a chunk would have. -/
def trailingJoin (l : List Str) (k : Nat) : Str :=
  joinSp (l.drop (l.length - k))

/- ------------------------------------------------------------------ -/
/- Concrete instances used by witnesses and counterexamples            -/
/- ------------------------------------------------------------------ -/

/-- A token counter charging one token per character: the simplest
counter consistent with the injected interface. -/
def tcLen : TokCtr := fun s => s.length

/-- A token counter that always returns zero, used to witness that an
error path never consults the counter. -/
def tcZero : TokCtr := fun _ => 0

/-- An encoder family assigning the per-character counter to every model. -/
def encLenFam : String → Option TokCtr := fun _ => some tcLen

/-- A whitespace-style tokenizer: one token per space-separated piece.
Real sub-word tokenizers (and this simple one) are not monotone in
character length. -/
def encWords : TokCtr := fun s => s.count ' ' + 1

/-- An encoder map carrying the whitespace-style tokenizer for gpt-4. -/
def encodersW : String → Option TokCtr :=
  fun m => if m = "gpt-4" then some encWords else none

/-- A short well-behaved text: one section, one sentence, 20 characters. -/
def sampleText : Str := str "aaaa bbbb cccc dddd."

/-- The single chunk chunkDocument produces from sampleText with the
per-character counter and a 6000-token budget. -/
def sampleChunk : Chunk := ⟨1, sampleText, some 20, 20, 4, sampleText, 1⟩

/-- 150 identical letters: a single unbreakable sentence that forces the
emergency character-splitting path. -/
def c1content : Str := List.replicate 150 'a'

/-- Whether a chunking result is a success containing a chunk that
violates the claimed token-count bounds: a zero count, a count above 110
percent of the budget, or a NaN count (none), which fails both claimed
comparisons at once. -/
def c1violates (r : Except String (List Chunk)) (m : Nat) : Bool :=
  match r with
  | .ok cs => cs.any (fun c =>
      match c.tokenCount with
      | some t => decide (t = 0) || decide (11 * m < 10 * t)
      | none => true)
  | .error _ => false

/-- First section of the overlap counterexample: four sentences. -/
def c5sec1 : Str := str "Aaa aaa aaaa. Bbb bbb bbbb. Ccc ccc cccc. Ddd ddd dddd."

/-- Second section of the overlap counterexample: 60 letters. -/
def c5sec2 : Str := List.replicate 60 'e'

/-- Two-section content whose second section overflows a 100-token budget
under the per-character counter, forcing the overlap branch. -/
def c5content : Str := c5sec1 ++ nl2 ++ c5sec2

/-- The shape claim C5 asserts for the chunk following a closed chunk: its
text is the second section prefixed (under either separator convention) by
some suffix of the closed chunk's sentences, or the bare section when the
overlap is empty. -/
def c5claimShape (a b : Chunk) (sec : Str) : Bool :=
  (List.range ((splitIntoSentencesSecure a.text).length + 1)).any (fun k =>
    b.text == (if k = 0 then sec
      else trailingJoin (splitIntoSentencesSecure a.text) k ++ nl2 ++ sec) ||
    b.text == (if k = 0 then sec
      else trailingJoin (splitIntoSentencesSecure a.text) k ++ [' '] ++ sec))

/-- Whether the run on c5content yields two chunks whose second chunk
violates the claimed trailing-overlap shape. -/
def c5refuted : Bool :=
  match chunkDocument tcLen c5content 100 "gpt-4" with
  | .ok [a, b] => !c5claimShape a b c5sec2
  | _ => false

/-- The ZIP local-file header, the magic number of the OOXML container
formats. -/
def zipHeader : List Nat := [0x50, 0x4B, 0x03, 0x04]

/-- The PDF magic number, the bytes of %PDF. -/
def pdfBuffer : List Nat := [0x25, 0x50, 0x44, 0x46]

/-- A successful extraction oracle carrying sampleText. -/
def wExtract : ExtractedContent := ⟨sampleText, 1⟩

/- ------------------------------------------------------------------ -/
/- Helper lemmas                                                      -/
/- ------------------------------------------------------------------ -/

/-- The scaled rounding in countTokens really is Math.round of the product
of the base count with the ratio. -/
theorem jsRoundScaled_eq (base : Nat) (r : ℚ) :
    jsRoundScaled base r = jsRound ((base : ℚ) * r) := by
  have hden0 : (r.den : ℚ) ≠ 0 := Nat.cast_ne_zero.mpr r.den_nz
  have hrd : r * (r.den : ℚ) = (r.num : ℚ) := by
    nth_rewrite 1 [← Rat.num_div_den r]
    exact div_mul_cancel₀ _ hden0
  have hden : ((2 * r.den : ℕ) : ℚ) ≠ 0 := by positivity
  have key : (base : ℚ) * r + 1/2
      = ((2 * (base : Int) * r.num + (r.den : Int) : Int) : ℚ) / ((2 * r.den : ℕ) : ℚ) := by
    rw [eq_div_iff hden]
    push_cast
    linear_combination (2 * (base : ℚ)) * hrd
  unfold jsRound jsRoundScaled
  rw [key, Rat.floor_intCast_div_natCast]
  rw [Int.fdiv_eq_ediv _ (by positivity)]
  push_cast
  rfl

/-- Every approximation ratio stored in the model database is
non-negative. -/
theorem db_ratios_nonneg : ∀ e ∈ modelDatabase, 0 ≤ e.2.ratioApprox.getD 1 := by
  decide

theorem createChunkSecure_tokenCount {t : Str} {tk : Option Nat} {i : Nat}
    {c : Chunk} (h : createChunkSecure t tk i = some c) :
    c.tokenCount = tk.map (fun x => max 1 x) := by
  simp only [createChunkSecure] at h
  split at h
  · exact absurd h (by simp)
  · split at h
    · split at h
      · exact absurd h (by simp)
      · cases h
        rfl
    · cases h
      rfl

theorem one_le_of_maxed {tk : Option Nat} {t : Nat}
    (h : tk.map (fun x => max 1 x) = some t) : 1 ≤ t := by
  cases tk with
  | none => exact absurd h (by simp)
  | some x =>
    simp only [Option.map_some', Option.some.injEq] at h
    subst h
    exact le_max_left 1 x

theorem allMin1_nil : AllMin1 [] := fun _ h => absurd h (List.not_mem_nil _)

theorem allMin1_append {a b : List (Option Chunk)}
    (ha : AllMin1 a) (hb : AllMin1 b) : AllMin1 (a ++ b) :=
  fun c h => (List.mem_append.mp h).elim (ha c) (hb c)

theorem allMin1_single (t : Str) (tk : Option Nat) (i : Nat) :
    AllMin1 [createChunkSecure t tk i] := by
  intro c hc t' ht'
  simp only [List.mem_singleton] at hc
  rw [createChunkSecure_tokenCount hc.symm] at ht'
  exact one_le_of_maxed ht'

theorem allMin1_mapCreateIdx : ∀ (l : List RawChunk) (i : Nat),
    AllMin1 (mapCreateIdx l i)
  | [], _ => allMin1_nil
  | rc :: rest, i => by
    intro c hc t' ht'
    rcases List.mem_cons.mp hc with h | h
    · rw [createChunkSecure_tokenCount h.symm] at ht'
      exact one_le_of_maxed ht'
    · exact allMin1_mapCreateIdx rest (i + 1) c h t' ht'

theorem allMin1_splitLargeLoop (tc : TokCtr) (m : Nat) :
    ∀ (sentences : List Str) (chunks : List (Option Chunk)) (cur : Str)
      (curTok idx : Nat), AllMin1 chunks →
      AllMin1 (splitLargeLoop tc m sentences chunks cur curTok idx)
  | [], chunks, cur, curTok, idx, h => by
    simp only [splitLargeLoop]
    split
    · exact h
    · exact allMin1_append h (allMin1_single _ _ _)
  | s :: rest, chunks, cur, curTok, idx, h => by
    simp only [splitLargeLoop]
    repeat' split
    all_goals first
      | exact h
      | exact allMin1_append h (allMin1_single _ _ _)
      | exact allMin1_append (allMin1_append h (allMin1_single _ _ _)) (allMin1_single _ _ _)
      | exact allMin1_splitLargeLoop tc m rest _ _ _ _ h
      | exact allMin1_splitLargeLoop tc m rest _ _ _ _ (allMin1_append h (allMin1_single _ _ _))
      | exact allMin1_splitLargeLoop tc m rest _ _ _ _ (allMin1_append h (allMin1_mapCreateIdx _ _))
      | exact allMin1_splitLargeLoop tc m rest _ _ _ _
          (allMin1_append (allMin1_append h (allMin1_single _ _ _)) (allMin1_mapCreateIdx _ _))

theorem allMin1_splitLargeSectionSecure (tc : TokCtr) (s : Str) (m i : Nat) :
    AllMin1 (splitLargeSectionSecure tc s m i) :=
  allMin1_splitLargeLoop tc m _ _ _ _ _ allMin1_nil

theorem allMin1_performChunkingLoop (tc : TokCtr) (m : Nat) :
    ∀ (sections : List Str) (prev : Str)
      (st : List (Option Chunk) × Str × Nat × Nat), AllMin1 st.1 →
      AllMin1 (performChunkingLoop tc m sections prev st).1
  | [], _, st, h => h
  | s :: rest, prev, (chunks, cur, curTok, idx), h => by
    simp only [performChunkingLoop]
    repeat' split
    all_goals first
      | exact h
      | exact allMin1_append h (allMin1_single _ _ _)
      | exact allMin1_append h (allMin1_splitLargeSectionSecure _ _ _ _)
      | exact allMin1_append (allMin1_append h (allMin1_single _ _ _))
          (allMin1_splitLargeSectionSecure _ _ _ _)
      | exact allMin1_performChunkingLoop tc m rest s _ h
      | exact allMin1_performChunkingLoop tc m rest s _
          (allMin1_append h (allMin1_single _ _ _))
      | exact allMin1_performChunkingLoop tc m rest s _
          (allMin1_append h (allMin1_splitLargeSectionSecure _ _ _ _))
      | exact allMin1_performChunkingLoop tc m rest s _
          (allMin1_append (allMin1_append h (allMin1_single _ _ _))
            (allMin1_splitLargeSectionSecure _ _ _ _))

theorem allMin1_performChunking (tc : TokCtr) (content : Str) (m : Nat) :
    AllMin1 (performChunking tc content m) := by
  simp only [performChunking]
  split
  · exact allMin1_performChunkingLoop tc m _ _ _ allMin1_nil
  · exact allMin1_append (allMin1_performChunkingLoop tc m _ _ _ allMin1_nil)
      (allMin1_single _ _ _)

theorem validChunksOf_mem {chunks : List (Option Chunk)} {m : Nat} {c : Chunk}
    (hc : c ∈ validChunksOf chunks m) :
    ∃ t, c.tokenCount = some t ∧ 0 < t ∧ 10 * t ≤ 11 * m := by
  rcases List.mem_filter.mp hc with ⟨_, hp⟩
  unfold chunkFilter at hp
  have h2 := (Bool.and_eq_true _ _).mp hp
  cases htk : c.tokenCount with
  | none =>
    rw [htk] at h2
    exact absurd h2.2 (by simp)
  | some t =>
    rw [htk] at h2
    have h3 := (Bool.and_eq_true _ _).mp h2.2
    exact ⟨t, rfl, of_decide_eq_true h3.1, of_decide_eq_true h3.2⟩

theorem validateChunks_mem {chunks : List (Option Chunk)} {m : Nat} {c : Chunk}
    (hall : AllMin1 chunks) (hc : c ∈ validateChunks chunks m) :
    (∀ t, c.tokenCount = some t → 1 ≤ t) ∧
      ((∃ t, c.tokenCount = some t ∧ 10 * t ≤ 11 * m) ∨
        validateChunks chunks m = [c]) := by
  unfold validateChunks at hc ⊢
  split at hc
  · rename_i hcond
    split at hc
    · rename_i best hfind
      simp only [List.mem_singleton] at hc
      subst hc
      have hmem : some c ∈ chunks := by
        rcases List.mem_filterMap.mp (List.mem_of_find?_eq_some hfind) with ⟨a, ha, hid⟩
        cases hid
        exact ha
      refine ⟨hall c hmem, .inr ?_⟩
      rw [if_pos hcond]
    · have hmemf := List.mem_of_mem_take hc
      rcases validChunksOf_mem hmemf with ⟨t, htk, h1, h2⟩
      refine ⟨fun t' ht' => ?_, .inl ⟨t, htk, h2⟩⟩
      rw [htk] at ht'
      injection ht' with hv
      omega
  · have hmemf := List.mem_of_mem_take hc
    rcases validChunksOf_mem hmemf with ⟨t, htk, h1, h2⟩
    refine ⟨fun t' ht' => ?_, .inl ⟨t, htk, h2⟩⟩
    rw [htk] at ht'
    injection ht' with hv
    omega

theorem validateChunks_length (chunks : List (Option Chunk)) (m : Nat) :
    (validateChunks chunks m).length ≤ MAX_CHUNK_COUNT := by
  unfold validateChunks
  split
  · split
    · simp [MAX_CHUNK_COUNT]
    · exact List.length_take_le _ _
  · exact List.length_take_le _ _

theorem chunkDocument_ok {tc : TokCtr} {content : Str} {maxTokens : Int}
    {model : String} {cs : List Chunk}
    (h : chunkDocument tc content maxTokens model = .ok cs) :
    cs = validateChunks (performChunking tc content maxTokens.toNat)
      maxTokens.toNat := by
  unfold chunkDocument at h
  split at h
  · exact absurd h (by simp)
  · cases h
    rfl

theorem chunkDocument_ok_of_validate {tc : TokCtr} {content : Str}
    {maxTokens : Int} {model : String}
    (h : validateInput content maxTokens model = .ok ()) :
    chunkDocument tc content maxTokens model =
      .ok (validateChunks (performChunking tc content maxTokens.toNat)
        maxTokens.toNat) := by
  unfold chunkDocument
  rw [h]

theorem accumLoop_filter (tc : TokCtr) :
    ∀ (l : List Str) (acc : Str) (accTok : Nat),
      sentenceAccumLoop tc l acc accTok =
        sentenceAccumLoop tc (l.filter (fun s => !s.isEmpty)) acc accTok
  | [], _, _ => rfl
  | s :: rest, acc, accTok => by
    by_cases hs : s.isEmpty = true
    · have hf : List.filter (fun s => !s.isEmpty) (s :: rest) =
          List.filter (fun s => !s.isEmpty) rest := by
        simp [List.filter_cons, hs]
      rw [hf]
      simp only [sentenceAccumLoop]
      rw [if_pos hs]
      exact accumLoop_filter tc rest acc accTok
    · have hf : List.filter (fun s => !s.isEmpty) (s :: rest) =
          s :: List.filter (fun s => !s.isEmpty) rest := by
        simp [List.filter_cons, hs]
      rw [hf]
      simp only [sentenceAccumLoop]
      rw [if_neg hs, if_neg hs]
      by_cases hfit : accTok + tc s ≤ overlapTokens
      · rw [if_pos hfit, if_pos hfit]
        exact accumLoop_filter tc rest _ _
      · rw [if_neg hfit, if_neg hfit]

theorem accumLoop_spec (tc : TokCtr) :
    ∀ (l : List Str), (∀ s ∈ l, s.isEmpty = false) →
      ∀ (acc : Str) (accTok : Nat), ∃ j, j ≤ l.length ∧
        sentenceAccumLoop tc l acc accTok =
          List.foldl (fun a s => a ++ (if a.isEmpty then [] else [' ']) ++ s)
            acc (l.take j) ∧
        (accTok + tokSum tc (l.take j) ≤ overlapTokens ∨ j = 0)
  | [], _, acc, accTok => ⟨0, by simp [sentenceAccumLoop, tokSum]⟩
  | s :: rest, h, acc, accTok => by
    have hs : s.isEmpty = false := h s (List.mem_cons_self s rest)
    simp only [sentenceAccumLoop, hs]
    by_cases hfit : accTok + tc s ≤ overlapTokens
    · rw [if_pos hfit]
      obtain ⟨j, hj, heq, hbound⟩ :=
        accumLoop_spec tc rest (fun x hx => h x (List.mem_cons_of_mem s hx))
          (acc ++ (if acc.isEmpty then [] else [' ']) ++ s) (accTok + tc s)
      refine ⟨j + 1, by simpa using Nat.succ_le_succ hj, ?_, ?_⟩
      · simpa [List.take_succ_cons] using heq
      · rcases hbound with hb | hb
        · left
          simp only [tokSum] at hb ⊢
          simp only [List.take_succ_cons, List.map_cons, List.sum_cons]
          omega
        · left
          subst hb
          simp only [List.take_succ_cons, List.take_zero, tokSum,
            List.map_cons, List.map_nil, List.sum_cons, List.sum_nil]
          omega
    · rw [if_neg hfit]
      exact ⟨0, by simp [tokSum]⟩

theorem foldl_join_nonempty :
    ∀ (l : List Str) (acc : Str), acc.isEmpty = false →
      List.foldl (fun a s => a ++ (if a.isEmpty then [] else [' ']) ++ s) acc l =
        acc ++ l.flatMap (fun x => ' ' :: x)
  | [], acc, _ => by simp
  | s :: rest, acc, h => by
    simp only [List.foldl_cons, List.flatMap_cons]
    rw [if_neg (by simp [h])]
    have hne : (acc ++ [' '] ++ s).isEmpty = false := by
      simp [List.isEmpty_eq_false]
    rw [foldl_join_nonempty rest _ hne]
    simp [List.append_assoc]

theorem foldl_join_nil (l : List Str) (h : ∀ s ∈ l, s.isEmpty = false) :
    List.foldl (fun a s => a ++ (if a.isEmpty then [] else [' ']) ++ s) [] l =
      joinSp l := by
  cases l with
  | nil => rfl
  | cons s rest =>
    have hs : s.isEmpty = false := h s (List.mem_cons_self s rest)
    simp only [List.foldl_cons, joinSp, List.isEmpty_nil, if_true,
      List.nil_append]
    exact foldl_join_nonempty rest s hs

theorem joinSp_isEmpty_false {l : List Str} (hne : l ≠ [])
    (h : ∀ s ∈ l, s.isEmpty = false) : (joinSp l).isEmpty = false := by
  cases l with
  | nil => exact absurd rfl hne
  | cons s rest =>
    have hs : s.isEmpty = false := h s (List.mem_cons_self s rest)
    simp only [joinSp]
    rw [List.isEmpty_eq_false] at hs ⊢
    exact fun hemp => hs (List.append_eq_nil.mp hemp).1

theorem addOverlapSecure_spec (tc : TokCtr) (currentChunk prevSection : Str) :
    ∃ j, j ≤ (overlapWindow prevSection).length ∧
      addOverlapSecure tc currentChunk prevSection =
        (if j = 0 then currentChunk
         else joinSp ((overlapWindow prevSection).take j) ++ nl2 ++ currentChunk) ∧
      tokSum tc ((overlapWindow prevSection).take j) ≤ overlapTokens := by
  by_cases hp : prevSection.isEmpty = true
  · refine ⟨0, Nat.zero_le _, ?_, by simp [tokSum]⟩
    simp only [addOverlapSecure]
    rw [if_pos (by simp [hp])]
    simp
  · have hwin : ∀ s ∈ overlapWindow prevSection, s.isEmpty = false := by
      intro s hs
      simpa using (List.mem_filter.mp hs).2
    obtain ⟨j, hj, heq, hbound⟩ := accumLoop_spec tc (overlapWindow prevSection) hwin [] 0
    have hb : tokSum tc ((overlapWindow prevSection).take j) ≤ overlapTokens := by
      rcases hbound with hb | hb
      · omega
      · subst hb
        simp [tokSum, overlapTokens]
    refine ⟨j, hj, ?_, hb⟩
    simp only [addOverlapSecure]
    rw [if_neg (by simp [hp, overlapTokens])]
    rw [accumLoop_filter]
    have hwe : ((splitIntoSentencesSecure prevSection).drop
        ((splitIntoSentencesSecure prevSection).length - 5)).filter
        (fun s => !s.isEmpty) = overlapWindow prevSection := rfl
    rw [hwe, heq, foldl_join_nil _ (fun s hs => hwin s (List.mem_of_mem_take hs))]
    by_cases hj0 : j = 0
    · subst hj0
      simp [joinSp]
    · rw [if_neg hj0]
      have htk : (overlapWindow prevSection).take j ≠ [] := by
        rw [Ne, List.take_eq_nil_iff]
        push_neg
        exact ⟨hj0, List.ne_nil_of_length_pos (by omega)⟩
      have hje : (joinSp ((overlapWindow prevSection).take j)).isEmpty = false :=
        joinSp_isEmpty_false htk (fun s hs => hwin s (List.mem_of_mem_take hs))
      rw [if_neg (by simp [hje])]

theorem getContextStartSecure_spec (tc : TokCtr) (text : Str) :
    ∃ j, j ≤ (contextWindow3 text).length ∧
      getContextStartSecure tc text = joinSp ((contextWindow3 text).take j) ∧
      tokSum tc ((contextWindow3 text).take j) ≤ overlapTokens := by
  by_cases ht : text.isEmpty = true
  · refine ⟨0, Nat.zero_le _, ?_, by simp [tokSum]⟩
    simp only [getContextStartSecure]
    rw [if_pos ht]
    simp [joinSp]
  · have hwin : ∀ s ∈ contextWindow3 text, s.isEmpty = false := by
      intro s hs
      simpa using (List.mem_filter.mp hs).2
    obtain ⟨j, hj, heq, hbound⟩ := accumLoop_spec tc (contextWindow3 text) hwin [] 0
    have hb : tokSum tc ((contextWindow3 text).take j) ≤ overlapTokens := by
      rcases hbound with hb | hb
      · omega
      · subst hb
        simp [tokSum, overlapTokens]
    refine ⟨j, hj, ?_, hb⟩
    simp only [getContextStartSecure]
    rw [if_neg ht]
    rw [accumLoop_filter]
    have hwe : ((splitIntoSentencesSecure text).take 3).filter
        (fun s => !s.isEmpty) = contextWindow3 text := rfl
    rw [hwe, heq, foldl_join_nil _ (fun s hs => hwin s (List.mem_of_mem_take hs))]

theorem sanitizeFileName_length (name : Str) :
    (sanitizeFileName name).length ≤ 100 :=
  List.length_take_le _ _

theorem sanitizeFileName_safe {name : Str} {c : Char}
    (hc : c ∈ sanitizeFileName name) : isSafeFileChar c = true := by
  have hm := List.mem_of_mem_take hc
  rcases List.mem_map.mp hm with ⟨x, _, hx⟩
  by_cases hsafe : isSafeFileChar x = true
  · rw [if_pos hsafe] at hx
    rwa [hx] at hsafe
  · rw [if_neg hsafe] at hx
    rw [← hx]
    decide

theorem processFile_error (performX : Except String ExtractedContent)
    (stat : Option FileStats) (now : Nat) (cache : List (String × CacheEntry))
    (tempFilePath : String) (activeCount : Nat) (buffer : List Nat)
    (fileName : Str) (mime : String) (om : Option String) (omt : Option Int) :
    ∃ e, processFile performX stat now cache tempFilePath activeCount buffer
      fileName mime om omt = .error e := by
  unfold processFile
  repeat' split
  all_goals exact ⟨_, rfl⟩

theorem validateFileSecurely_error_of_sig {buffer : List Nat} {name : Str}
    {mime : String} {sig : List Nat} (hsig : signatureFor mime = some sig)
    (hmis : buffer.take sig.length ≠ sig) :
    ∃ msg, validateFileSecurely buffer name mime = .error msg := by
  unfold validateFileSecurely
  split
  · exact ⟨_, rfl⟩
  · split
    · exact ⟨_, rfl⟩
    · split
      · exact ⟨_, rfl⟩
      · have hvs : validateFileSignature buffer mime = .error
            "File signature does not match declared MIME type. File may be corrupted or spoofed." := by
          unfold validateFileSignature
          rw [hsig]
          exact if_neg hmis
        rw [hvs]
        exact ⟨_, rfl⟩

theorem validateInput_error_of_bad_maxTokens {content : Str} {maxTokens : Int}
    {model : String} (h : maxTokens < 100 ∨ 32000 < maxTokens) :
    ∃ e, validateInput content maxTokens model = .error e := by
  unfold validateInput
  split
  · exact ⟨_, rfl⟩
  · split
    · exact ⟨_, rfl⟩
    · split
      · exact ⟨_, rfl⟩
      · split
        · exact ⟨_, rfl⟩
        · rename_i hcond
          exfalso
          simp only [Bool.or_eq_true, decide_eq_true_eq] at hcond
          omega

theorem extractContent_cache_unchanged (performX : Except String ExtractedContent)
    (stat : Option FileStats) (now : Nat) (cache : List (String × CacheEntry))
    (filePath : String) (mime : String) :
    (extractContent performX stat now cache filePath mime).2 = cache := by
  unfold extractContent
  repeat' split
  all_goals simp only []
  all_goals repeat' split
  all_goals rfl

theorem extractContent_error_of_empty_cache
    (performX : Except String ExtractedContent) (stat : Option FileStats)
    (now : Nat) (filePath : String) (mime : String) :
    ∃ e, (extractContent performX stat now [] filePath mime).1 = .error e := by
  unfold extractContent
  repeat' split
  all_goals exact ⟨_, rfl⟩

/- ------------------------------------------------------------------ -/
/- Claim theorems                                                     -/
/- ------------------------------------------------------------------ -/

/-- C1, counterexample.  The claim asserts that every returned chunk has a
token count of at least 1 and at most maxTokens * 1.1 even on the
best-effort path.  Running chunkDocument on 150 identical letters with a
budget of 100 tokens forces the emergency character splitter, which stores
the un-awaited Promise of the async countTokens call as the raw token
count; Math.max(1, Promise) in createChunkSecure coerces it to NaN, the
NaN chunk fails both numeric filter comparisons, filtering empties the
list, and validateChunks hands that chunk back on the best-effort path
without re-checking its token count.  The returned chunk has tokenCount
NaN and so satisfies neither claimed bound. -/
theorem C1_counterexample :
    c1violates (chunkDocument tcLen c1content 100 "gpt-4") 100 = true := by
  decide

/-- C1, amended: whenever a chunk returned by chunkDocument has a numeric
token count at all, that count is at least 1 - chunks produced on the
emergency character-splitting path instead carry NaN, the coercion of the
un-awaited countTokens Promise - and every returned chunk either has a
numeric token count within the 110-percent budget bound or is the single
best-effort chunk of a singleton result, which may carry NaN or exceed the
bound. -/
theorem C1_theorem (tc : TokCtr) (content : Str) (maxTokens : Int)
    (model : String) (cs : List Chunk) (c : Chunk)
    (hok : chunkDocument tc content maxTokens model = .ok cs) (hc : c ∈ cs) :
    (∀ t, c.tokenCount = some t → 1 ≤ t) ∧
      ((∃ t, c.tokenCount = some t ∧ 10 * t ≤ 11 * maxTokens.toNat) ∨
        cs = [c]) := by
  have hcs := chunkDocument_ok hok
  subst hcs
  exact validateChunks_mem (allMin1_performChunking tc content maxTokens.toNat) hc

/-- C1, witness: the amended theorem applied to a concrete successful run
producing one within-budget chunk with a numeric token count. -/
theorem C1_witness :
    (∀ t, sampleChunk.tokenCount = some t → 1 ≤ t) ∧
      ((∃ t, sampleChunk.tokenCount = some t ∧ 10 * t ≤ 11 * (6000 : Int).toNat) ∨
        [sampleChunk] = [sampleChunk]) :=
  C1_theorem tcLen sampleText 6000 "gpt-4" [sampleChunk] sampleChunk
    (by decide) (by decide)

/-- C2, counterexample.  The claim asserts that concatenating the returned
chunks in order, minus overlap, reproduces the input.  The accepted
5-character input yields an empty chunk list (splitIntoSectionsSecure
drops every section whose trimmed length is below 10), so every
concatenation of returned chunk texts is the empty string, which differs
from the non-empty input. -/
theorem C2_counterexample :
    chunkDocument tcLen (str "hello") 6000 "gpt-4" = .ok [] ∧
      str "hello" ≠ ([] : Str) :=
  ⟨by decide, by decide⟩

/-- C2, amended: reconstruction fails in general because sectioning drops
text; in particular, for any accepted input all of whose blank-line
sections trim to fewer than 10 characters, chunkDocument succeeds with an
empty chunk list, reconstructing only the empty string. -/
theorem C2_theorem (tc : TokCtr) (content : Str) (maxTokens : Int)
    (model : String)
    (hval : validateInput content maxTokens model = .ok ())
    (hshort : ∀ s ∈ splitBlank (normalizeContent content),
      (jsTrim s).length < 10) :
    chunkDocument tc content maxTokens model = .ok [] := by
  have hsec : splitIntoSectionsSecure content = [] := by
    have hf : (splitBlank (normalizeContent content)).filter
        (fun s => decide ((jsTrim s).length ≥ 10)) = [] := by
      rw [List.filter_eq_nil_iff]
      intro a ha
      simp only [decide_eq_true_eq]
      have := hshort a ha
      omega
    simp only [splitIntoSectionsSecure]
    rw [hf]
    rfl
  have hperf : performChunking tc content maxTokens.toNat = [] := by
    unfold performChunking
    rw [hsec]
    rfl
  rw [chunkDocument_ok_of_validate hval, hperf]
  rfl

/-- C2, witness: the amended theorem applied to the 5-character input. -/
theorem C2_witness :
    chunkDocument tcLen (str "hello") 6000 "gpt-4" = .ok [] :=
  C2_theorem tcLen (str "hello") 6000 "gpt-4" (by decide) (by decide)

/-- C3: for every supported MIME type with a defined magic number, a
buffer whose leading bytes do not match it makes processFile throw a
validation error before any extraction work: the result is an error and is
the same for every extraction environment (extraction oracle, file stats,
clock, cache and temp file path), so the extractor is never consulted. -/
theorem C3_theorem (p1 p2 : Except String ExtractedContent)
    (st1 st2 : Option FileStats) (n1 n2 : Nat)
    (ca1 ca2 : List (String × CacheEntry)) (tmp1 tmp2 : String)
    (activeCount : Nat) (buffer : List Nat) (fileName : Str) (mime : String)
    (optModel : Option String) (optMaxTokens : Option Int) (sig : List Nat)
    (hsig : signatureFor mime = some sig)
    (hmis : buffer.take sig.length ≠ sig) :
    (∃ msg, processFile p1 st1 n1 ca1 tmp1 activeCount buffer fileName mime
        optModel optMaxTokens = .error msg) ∧
      processFile p1 st1 n1 ca1 tmp1 activeCount buffer fileName mime
          optModel optMaxTokens =
        processFile p2 st2 n2 ca2 tmp2 activeCount buffer fileName mime
          optModel optMaxTokens := by
  obtain ⟨msg, hm⟩ := validateFileSecurely_error_of_sig hsig hmis
  unfold processFile
  rw [hm]
  exact ⟨⟨msg, rfl⟩, rfl⟩

/-- C3, witness: a buffer declared application/pdf but starting with the
ZIP header is rejected, identically under a succeeding and a failing
extraction environment. -/
theorem C3_witness :
    (∃ msg, processFile (.ok wExtract) (some ⟨4, 99⟩) 1000 [] "a.tmp" 0
        zipHeader (str "doc.pdf") "application/pdf" none none = .error msg) ∧
      processFile (.ok wExtract) (some ⟨4, 99⟩) 1000 [] "a.tmp" 0 zipHeader
          (str "doc.pdf") "application/pdf" none none =
        processFile (.error "zip bytes") none 0 [] "b.tmp" 0 zipHeader
          (str "doc.pdf") "application/pdf" none none :=
  C3_theorem (.ok wExtract) (.error "zip bytes") (some ⟨4, 99⟩) none 1000 0
    [] [] "a.tmp" "b.tmp" 0 zipHeader (str "doc.pdf") "application/pdf"
    none none [0x25, 0x50, 0x44, 0x46] (by decide) (by decide)

/-- C4: for every text and every model id unknown to the database after
alias resolution, countTokens does not raise and returns the default
(GPT-4) tokenizer count of the text scaled by ratio 1.0, that is, the
fallback encoder count itself.  The hypothesis on the fallback encoder at
the empty string reflects that every tokenizer maps the empty text to zero
tokens, which the early falsy-text return of the source hard-codes. -/
theorem C4_theorem (encoders : String → Option TokCtr) (fb : TokCtr)
    (text : Str) (model : String)
    (hunknown : dbLookup (normalizeModelName model) = none)
    (hfb0 : fb [] = 0) :
    countTokens encoders fb text model = fb text := by
  simp only [countTokens]
  by_cases ht : text.isEmpty = true
  · rw [if_pos ht]
    have htn : text = [] := by simpa using ht
    rw [htn, hfb0]
  · rw [if_neg ht, hunknown]
    rfl

/-- C4, witness: the theorem applied to a concrete unknown model id with
the per-character fallback counter. -/
theorem C4_witness :
    countTokens (fun _ => none) tcLen (str "hello") "totally-unknown-model" =
      tcLen (str "hello") :=
  C4_theorem (fun _ => none) tcLen (str "hello") "totally-unknown-model"
    (by decide) rfl

/-- C5, counterexample.  The claim asserts that on overflow the overlap,
taken as whole sentences from the end of the chunk just closed, is
prepended to the next chunk.  On a two-section input whose first section
has four sentences, the second chunk is prefixed by the first three
sentences of the closed chunk (its leading context), not by any suffix of
its sentences, under either separator convention, and the closed chunk
itself is the one that receives a prepended overlap. -/
theorem C5_counterexample : c5refuted = true := by decide

/-- C5, amended: when the packing loop closes a chunk on overflow, the
closed chunk itself is prepended with up to overlapTokens of the trailing
(at most five) sentences of the previous section, and the next chunk is
prefixed with a space-joined prefix of the first (at most three) sentences
of the closed accumulated text, of total token count at most
overlapTokens (200). -/
theorem C5_theorem (tc : TokCtr) (currentChunk prevSection text : Str) :
    (∃ j, j ≤ (overlapWindow prevSection).length ∧
      addOverlapSecure tc currentChunk prevSection =
        (if j = 0 then currentChunk
         else joinSp ((overlapWindow prevSection).take j) ++ nl2 ++ currentChunk) ∧
      tokSum tc ((overlapWindow prevSection).take j) ≤ overlapTokens) ∧
    (∃ j, j ≤ (contextWindow3 text).length ∧
      getContextStartSecure tc text = joinSp ((contextWindow3 text).take j) ∧
      tokSum tc ((contextWindow3 text).take j) ≤ overlapTokens) :=
  ⟨addOverlapSecure_spec tc currentChunk prevSection,
    getContextStartSecure_spec tc text⟩

/-- C6: for every content, both token counters, and every integer
maxTokens outside [100, 32000], chunkDocument raises before any chunking
work begins: the result is an error and does not depend on the token
counter, which only the chunking stage consults. -/
theorem C6_theorem (tc tc2 : TokCtr) (content : Str) (maxTokens : Int)
    (model : String) (h : maxTokens < 100 ∨ 32000 < maxTokens) :
    (∃ e, chunkDocument tc content maxTokens model = .error e) ∧
      chunkDocument tc content maxTokens model =
        chunkDocument tc2 content maxTokens model := by
  obtain ⟨e, he⟩ :=
    @validateInput_error_of_bad_maxTokens content maxTokens model h
  unfold chunkDocument
  rw [he]
  exact ⟨⟨_, rfl⟩, rfl⟩

/-- C6, witness: maxTokens equal to 50 on a concrete accepted content
yields an error, identically under two different token counters. -/
theorem C6_witness :
    (∃ e, chunkDocument tcLen (str "hello world example") 50 "gpt-4" =
      .error e) ∧
      chunkDocument tcLen (str "hello world example") 50 "gpt-4" =
        chunkDocument tcZero (str "hello world example") 50 "gpt-4" :=
  C6_theorem tcLen tcZero (str "hello world example") 50 "gpt-4" (by decide)

/-- C7: the chunk list returned by chunkDocument never has more than 100
entries (validateChunks caps both of its return paths), and for every
input that passes validateInput the call succeeds with some chunk list
rather than an error, so oversized inputs terminate early with partial
results. -/
theorem C7_theorem (tc : TokCtr) (content : Str) (maxTokens : Int)
    (model : String) :
    (∀ cs, chunkDocument tc content maxTokens model = .ok cs →
      cs.length ≤ 100) ∧
      (validateInput content maxTokens model = .ok () →
        ∃ cs, chunkDocument tc content maxTokens model = .ok cs) := by
  constructor
  · intro cs hok
    rw [chunkDocument_ok hok]
    exact validateChunks_length _ _
  · intro hval
    exact ⟨_, chunkDocument_ok_of_validate hval⟩

/-- C7, witness: a concrete accepted input succeeds and its chunk list is
within the cap. -/
theorem C7_witness :
    ([sampleChunk] : List Chunk).length ≤ 100 ∧
      (∃ cs, chunkDocument tcLen sampleText 6000 "gpt-4" = .ok cs) :=
  ⟨(C7_theorem tcLen sampleText 6000 "gpt-4").1 [sampleChunk] (by decide),
    (C7_theorem tcLen sampleText 6000 "gpt-4").2 (by decide)⟩

/-- C8, counterexample.  The claim asserts countTokens is monotone in text
length for a fixed model.  The encoders are loaded from the external
tokenizer library at runtime and enter the model as parameters; under a
whitespace-style tokenizer (one token per space-separated piece, a shape
real sub-word tokenizers also exhibit) the 4-character text of three
pieces counts strictly more tokens than the 5-character single word, so
the longer text gets the smaller count and the code does nothing to
restore monotonicity. -/
theorem C8_counterexample :
    (str " a a").length < (str "hello").length ∧
      countTokens encodersW encWords (str "hello") "gpt-4" <
        countTokens encodersW encWords (str " a a") "gpt-4" := by
  decide

/-- C8, amended: for a fixed model, countTokens is deterministic (two
calls with the same text and model return the same count), and it is
monotone in text length whenever the fallback encoder and every loaded
encoder are themselves monotone in text length; monotonicity of the
external tokenizers is not guaranteed by the code. -/
theorem C8_theorem (encoders : String → Option TokCtr) (fb : TokCtr)
    (model : String) :
    (∀ text, countTokens encoders fb text model =
      countTokens encoders fb text model) ∧
      ((∀ s t : Str, s.length ≤ t.length → fb s ≤ fb t) →
        (∀ (name : String) (f : TokCtr), encoders name = some f →
          ∀ s t : Str, s.length ≤ t.length → f s ≤ f t) →
        ∀ t1 t2 : Str, t1.length ≤ t2.length →
          countTokens encoders fb t1 model ≤ countTokens encoders fb t2 model) := by
  refine ⟨fun _ => rfl, fun hfb henc t1 t2 hlen => ?_⟩
  simp only [countTokens]
  by_cases h1 : t1.isEmpty = true
  · rw [if_pos h1]
    exact Nat.zero_le _
  · have h1' : t1 ≠ [] := by simpa using h1
    have hpos : 0 < t2.length := lt_of_lt_of_le (List.length_pos.mpr h1') hlen
    have h2' : t2 ≠ [] := List.ne_nil_of_length_pos hpos
    rw [if_neg h1, if_neg (by simpa using h2')]
    cases hdb : dbLookup (normalizeModelName model) with
    | none => exact hfb _ _ hlen
    | some spec =>
      dsimp only
      by_cases hha : spec.hasEncoder = true
      · rw [if_pos hha, if_pos hha]
        cases henc2 : encoders (normalizeModelName model) with
        | none => simpa [henc2] using hfb _ _ hlen
        | some f => simpa [henc2] using henc _ f henc2 _ _ hlen
      · rw [if_neg hha, if_neg hha]
        have hr : 0 ≤ spec.ratioApprox.getD 1 := by
          unfold dbLookup at hdb
          rcases Option.map_eq_some'.mp hdb with ⟨e, hfind, he2⟩
          have hmem := List.mem_of_find?_eq_some hfind
          have hnn := db_ratios_nonneg e hmem
          rw [he2] at hnn
          exact hnn
        have hq : (fb t1 : ℚ) * spec.ratioApprox.getD 1 ≤
            (fb t2 : ℚ) * spec.ratioApprox.getD 1 :=
          mul_le_mul_of_nonneg_right (by exact_mod_cast hfb _ _ hlen) hr
        rw [jsRoundScaled_eq, jsRoundScaled_eq]
        refine Int.toNat_le_toNat ?_
        unfold jsRound
        exact Int.floor_le_floor (by linarith)

/-- C8, witness: the amended theorem applied to the per-character encoder
family (which is monotone) on an approximation-ratio model. -/
theorem C8_witness :
    countTokens encLenFam tcLen (str "hi") "claude-3-opus" ≤
      countTokens encLenFam tcLen (str "hello") "claude-3-opus" :=
  (C8_theorem encLenFam tcLen "claude-3-opus").2
    (fun _ _ h => h)
    (fun _ f hf s t hst => by cases hf; exact hst)
    (str "hi") (str "hello") (by decide)

/-- C9: FileExtractor.extractContent never stores anything in the cache
(the second component of the result always equals the cache passed in),
and starting from the empty cache every invocation returns an error: the
cacheKey constant is scoped to the first try block, so the later cache
write raises a ReferenceError that the outer catch rewraps, which also
makes the cache-hit return path unreachable. -/
theorem C9_theorem (performX : Except String ExtractedContent)
    (stat : Option FileStats) (now : Nat)
    (cache : List (String × CacheEntry)) (filePath : String) (mime : String) :
    (extractContent performX stat now cache filePath mime).2 = cache ∧
      (cache = [] → ∃ e,
        (extractContent performX stat now cache filePath mime).1 = .error e) := by
  refine ⟨extractContent_cache_unchanged performX stat now cache filePath mime,
    fun hc => ?_⟩
  subst hc
  exact extractContent_error_of_empty_cache performX stat now filePath mime

/-- C9, witness: a concrete invocation with a succeeding extraction oracle
and valid stats, on the empty cache, leaves the cache empty and errors. -/
theorem C9_witness :
    (extractContent (.ok wExtract) (some ⟨4, 99⟩) 1000 [] "f.pdf"
      "application/pdf").2 = [] ∧
      (∃ e, (extractContent (.ok wExtract) (some ⟨4, 99⟩) 1000 [] "f.pdf"
        "application/pdf").1 = .error e) :=
  ⟨(C9_theorem (.ok wExtract) (some ⟨4, 99⟩) 1000 [] "f.pdf"
      "application/pdf").1,
    (C9_theorem (.ok wExtract) (some ⟨4, 99⟩) 1000 [] "f.pdf"
      "application/pdf").2 rfl⟩

/-- C10, code bug.  The claim presupposes successful processFile results
carrying a sanitized fileName, as the spec's description of the pipeline
output intends.  In the source no successful result is reachable:
FileExtractor.extractContent always throws (the block-scoped cacheKey, see
C9), and even when extraction is granted, the source never awaits the
async documentChunker.chunkDocument, so the chunks local holds a pending
Promise and chunks.map throws a TypeError that the catch rewraps.  The
theorem states both facts the evidence supports: for every input and
every extraction environment processFile returns an error, and the
sanitizer the intended success path would use does guarantee the claimed
property - sanitizeFileName truncates to at most 100 characters and maps
every character outside [a-zA-Z0-9._-] to an underscore. -/
theorem C10_theorem (performX : Except String ExtractedContent)
    (stat : Option FileStats) (now : Nat) (cache : List (String × CacheEntry))
    (tempFilePath : String) (activeCount : Nat) (buffer : List Nat)
    (fileName : Str) (mime : String) (optModel : Option String)
    (optMaxTokens : Option Int) :
    (∃ e, processFile performX stat now cache tempFilePath activeCount buffer
      fileName mime optModel optMaxTokens = .error e) ∧
      (sanitizeFileName fileName).length ≤ 100 ∧
      ∀ c ∈ sanitizeFileName fileName, isSafeFileChar c = true :=
  ⟨processFile_error performX stat now cache tempFilePath activeCount buffer
      fileName mime optModel optMaxTokens,
    sanitizeFileName_length fileName, fun _ hc => sanitizeFileName_safe hc⟩

/-- C10, witness: a concrete run on a valid PDF-signature buffer with a
space in the caller-supplied file name returns an error, and the sanitizer
bounds hold at that name. -/
theorem C10_witness :
    (∃ e, processFile (.ok wExtract) (some ⟨4, 99⟩) 1000 [] "f.tmp" 0
      pdfBuffer (str "My Doc.pdf") "application/pdf" none none = .error e) ∧
      (sanitizeFileName (str "My Doc.pdf")).length ≤ 100 ∧
      ∀ c ∈ sanitizeFileName (str "My Doc.pdf"), isSafeFileChar c = true :=
  C10_theorem (.ok wExtract) (some ⟨4, 99⟩) 1000 [] "f.tmp" 0 pdfBuffer
    (str "My Doc.pdf") "application/pdf" none none
